import Mathlib

/-!
Shallow embedding of the tabula wallpaper renderer (catacombing/tabula).

The embedding follows the Rust sources file by file:
* `src/geometry.rs` — `Position`, `Size`, scaling.
* `src/window.rs`   — `Window` state, `draw`, `gl_render` (image fit),
  `set_size`, `set_scale_factor`, `Image` lazy texture loading,
  the single-pixel-buffer construction in `Window::new`.
* `src/renderer.rs` — `Renderer` / `SizedRenderer` state machine.
* `src/cli.rs`      — `Rgb::from_str` hex color parsing.
* `src/wayland/mod.rs` — the compositor / fractional-scale handlers.

Machine floats (`f32`/`f64`) are embedded as exact rationals `ℚ`; machine
integers as `Nat` with explicit wrapping where overflow matters.  Fallible
code (panics, `unwrap`, `assert!`) is embedded in `Except String`.
-/

set_option autoImplicit false

namespace Tabula

/-- 2D object position, from `src/geometry.rs` (`Position<T>`). -/
structure Position (α : Type) where
  x : α
  y : α
  deriving DecidableEq, Repr

/-- 2D object size, from `src/geometry.rs` (`Size<T>`). -/
structure Size (α : Type) where
  width : α
  height : α
  deriving DecidableEq, Repr

/-- In the Rust code `Size<u32>` and `Position<i32>` use `Default`
(all components zero); in `Window::new` the size starts as
`Default::default()`. -/
def Size.zero : Size Nat := ⟨0, 0⟩

/-- Embedding of the image-fit computation in `Window::gl_render`
(src/window.rs lines 159-170), over exact rationals in place of `f32`.
Returns the `(position, size)` pair passed to `draw_texture_at`. -/
def imageFit (physical : Size ℚ) (image : Size ℚ) (focus : Position ℚ) :
    Position ℚ × Size ℚ :=
  let wr := physical.width / image.width
  let hr := physical.height / image.height
  if wr < hr then
    let width := image.width * hr
    let x := (physical.width - width) * focus.x
    (Position.mk x 0, Size.mk width physical.height)
  else
    let height := image.height * wr
    let y := (physical.height - height) * focus.y
    (Position.mk 0 y, Size.mk physical.width height)

/-- The image-fit computation exactly as the specification words it
(spec §4.2): branch on `V.width/I.width < V.height/I.height`, scaled size
and offsets given by the spec's formulas.  Used to compare code against
spec. -/
def imageFitSpec (V I : Size ℚ) (f : Position ℚ) : Position ℚ × Size ℚ :=
  if V.width / I.width < V.height / I.height then
    let scaledW := I.width * (V.height / I.height)
    (Position.mk ((V.width - scaledW) * f.x) 0, Size.mk scaledW V.height)
  else
    let scaledH := I.height * (V.width / I.width)
    (Position.mk 0 ((V.height - scaledH) * f.y), Size.mk V.width scaledH)

/-! ## Renderer (src/renderer.rs) -/

/-- Instrumentation telling which branch `Renderer::sized` took. -/
inductive SizedEvent
  | created
  | resized
  | noop
  deriving DecidableEq, Repr

/-- `SizedRenderer` (src/renderer.rs): EGL surface/context pair plus stored
size.  The EGL context object is abstracted to an identity token `ctxId`,
assigned freshly at creation, so that "the context is never recreated" is
expressible.  The uniform locations carry no state relevant to any claim. -/
structure SizedRenderer where
  ctxId : Nat
  size : Size Nat
  deriving DecidableEq, Repr

/-- `Renderer` (src/renderer.rs): `sized: Option<SizedRenderer>`.
`nextCtxId` is the allocator for context identity tokens. -/
structure Renderer where
  sized : Option SizedRenderer
  nextCtxId : Nat
  deriving DecidableEq, Repr

/-- `Renderer::new`: `sized` starts as `None` (`Default::default()`). -/
def Renderer.new : Renderer := { sized := none, nextCtxId := 0 }

/-- `SizedRenderer::new` → `create_surface`, which runs
`assert!(size.width > 0 && size.height > 0)` and then converts both
dimensions through `NonZeroU32::new(..).unwrap()`.  A zero dimension
panics (embedded as `Except.error`). -/
def SizedRenderer.mkNew (ctxId : Nat) (size : Size Nat) : Except String SizedRenderer :=
  if 0 < size.width ∧ 0 < size.height then
    Except.ok { ctxId := ctxId, size := size }
  else
    Except.error ("assertion failed: size.width > 0 && size.height > 0")

/-- `SizedRenderer::resize`: no-op when the size is unchanged, otherwise
`NonZeroU32::new(size.width).unwrap()` / `..height..unwrap()` (panic on
zero) and the stored size is updated in place. -/
def SizedRenderer.resize (r : SizedRenderer) (size : Size Nat) : Except String SizedRenderer :=
  if r.size = size then
    Except.ok r
  else if size.width = 0 then
    Except.error ("called Option.unwrap on a None value (NonZeroU32 width)")
  else if size.height = 0 then
    Except.error ("called Option.unwrap on a None value (NonZeroU32 height)")
  else
    Except.ok { r with size := size }

/-- `Renderer::sized` (src/renderer.rs lines 105-117): resize when the
sized state exists, create it otherwise. -/
def Renderer.sizedStep (r : Renderer) (size : Size Nat) :
    Except String (Renderer × SizedEvent) :=
  match r.sized with
  | some s =>
      (s.resize size).map fun s' =>
        ({ r with sized := some s' }, if s.size = size then SizedEvent.noop else SizedEvent.resized)
  | none =>
      (SizedRenderer.mkNew r.nextCtxId size).map fun s =>
        ({ sized := some s, nextCtxId := r.nextCtxId + 1 }, SizedEvent.created)

/-- Effects observable at the Wayland/OpenGL boundary, emitted in order by
the embedded `Window::draw` / `Renderer::draw`. -/
inductive DrawOp
  | setDestination (width height : Nat)
  | damage (width height : Nat)
  | attachBuffer (r g b a : Nat)
  | commit
  | glViewport (width height : Nat)
  | glClearColor (r g b a : ℚ)
  | glClear
  | glUploadTexture (bytes : List Nat) (width height format : Nat)
  | glDrawTexture (texId : Nat) (position : Position ℚ) (size : Size ℚ)
  | glFlush
  | swapBuffers
  deriving DecidableEq, Repr

/-- The operations counted as GPU drawing primitives / GPU renderer work. -/
def DrawOp.isGpu : DrawOp → Bool
  | .glViewport _ _ => true
  | .glClearColor _ _ _ _ => true
  | .glClear => true
  | .glUploadTexture _ _ _ _ => true
  | .glDrawTexture _ _ _ => true
  | .glFlush => true
  | .swapBuffers => true
  | _ => false

/-- `Renderer::draw` (src/renderer.rs lines 46-59): make current via
`self.sized(size)`, set the GL viewport, run the caller's closure (its
effects are `closureOps`), flush, swap buffers via `self.sized(size)`
again. -/
def Renderer.draw (r : Renderer) (size : Size Nat) (closureOps : List DrawOp) :
    Except String (Renderer × List DrawOp) := do
  let (r1, _) ← r.sizedStep size
  let (r2, _) ← r1.sizedStep size
  Except.ok (r2, DrawOp.glViewport size.width size.height ::
    (closureOps ++ [DrawOp.glFlush, DrawOp.swapBuffers]))

/-- A sequence of `Renderer::draw` calls (each with an empty closure),
used to state the lifecycle of the sized state across draws. -/
def Renderer.drawSeq (r : Renderer) (sizes : List (Size Nat)) : Except String Renderer :=
  match sizes with
  | [] => Except.ok r
  | s :: rest => do
      let (r1, _) ← r.draw s []
      r1.drawSeq rest

/-- Invariant: any stored sized state has strictly positive dimensions. -/
def Renderer.posInv (r : Renderer) : Prop :=
  ∀ sz, r.sized = some sz → 0 < sz.size.width ∧ 0 < sz.size.height

/-! ## Window (src/window.rs) -/

/-- `Rgb` (src/cli.rs): byte triple; components are `u8`, kept as `Nat`
values below 256. -/
structure Rgb where
  r : Nat
  g : Nat
  b : Nat
  deriving DecidableEq, Repr

/-- `UnloadedImage` (src/window.rs): raw decoded wallpaper data. -/
structure UnloadedImage where
  bytes : List Nat
  width : Nat
  height : Nat
  gl_format : Nat
  deriving DecidableEq, Repr

/-- `Texture` (src/renderer.rs): context-scoped GL texture handle. -/
structure Texture where
  width : Nat
  height : Nat
  id : Nat
  deriving DecidableEq, Repr

/-- `Texture::new(buffer, width, height, format)` as invoked from
`Image::texture`: uploads the pixel bytes and returns the handle.  The GL
texture id is context-scoped; the model uses a constant token. -/
def Texture.mkNew (bytes : List Nat) (width height format : Nat) : Texture × List DrawOp :=
  ({ width := width, height := height, id := 0 },
   [DrawOp.glUploadTexture bytes width height format])

/-- `Image` (src/window.rs): `Loaded(Texture) | Unloaded(UnloadedImage)`. -/
inductive Image
  | loaded (texture : Texture)
  | unloaded (image : UnloadedImage)
  deriving DecidableEq, Repr

/-- `Image::texture` (src/window.rs lines 222-233): on `Unloaded`, upload
the texture and transition to `Loaded`; then return the texture.  The
returned operation list holds the upload effects performed by the call. -/
def Image.texture : Image → Image × Texture × List DrawOp
  | .unloaded u =>
      let (t, ops) := Texture.mkNew u.bytes u.width u.height u.gl_format
      (.loaded t, t, ops)
  | .loaded t => (.loaded t, t, [])

/-- `Image::size` (src/window.rs lines 236-241). -/
def Image.sizeOf : Image → Size Nat
  | .loaded t => { width := t.width, height := t.height }
  | .unloaded u => { width := u.width, height := u.height }

/-- `Options` (src/cli.rs).  The `--image` path is resolved through the
external decode boundary (`UnloadedImage::new`), so the model carries the
decoded raw image directly: `image = some u` iff a path was configured and
decoded to `u`. -/
structure Options where
  color : Rgb
  image : Option UnloadedImage
  focus : Position ℚ
  deriving DecidableEq, Repr

/-- `u32::MAX`. -/
def u32Max : Nat := 4294967295

/-- One color channel of the single-pixel buffer
(src/window.rs lines 84-88): `c as u32 * (u32::MAX / 255)` in `u32`
arithmetic (integer division, wrapping multiplication). -/
def spbChannel (c : Nat) : Nat := (c * (u32Max / 255)) % 4294967296

/-- `f64::round` followed by `as u32` (saturating cast), for the
nonnegative-or-clamped values produced by `Size * f64`. -/
def f64RoundToU32 (q : ℚ) : Nat :=
  if q ≤ 0 then 0 else min u32Max (Int.toNat ⌊q + 1/2⌋)

/-- `impl Mul<f64> for Size` (src/geometry.rs): scale both dimensions and
round to the nearest integer. -/
def Size.mulF64 (s : Size Nat) (scale : ℚ) : Size Nat :=
  { width := f64RoundToU32 ((s.width : ℚ) * scale),
    height := f64RoundToU32 ((s.height : ℚ) * scale) }

/-- `Window` (src/window.rs): the protocol handles (`surface`,
`viewport`) are identityless and omitted; everything else is kept. -/
structure Window where
  renderer : Renderer
  options : Options
  spb_buffer : Option (Nat × Nat × Nat × Nat)
  image : Option Image
  size : Size Nat
  scale : ℚ
  deriving DecidableEq, Repr

/-- `Window::new` (src/window.rs lines 38-103): load the image lazily as
`Unloaded`, and create the single-pixel buffer only when the capability is
available and no image is configured
(`single_pixel_buffer.as_ref().filter(|_| options.image.is_none())`). -/
def Window.mkNew (spbAvailable : Bool) (options : Options) : Window :=
  { renderer := Renderer.new,
    options := options,
    spb_buffer :=
      if spbAvailable && options.image.isNone then
        some (spbChannel options.color.r, spbChannel options.color.g,
              spbChannel options.color.b, u32Max)
      else
        none,
    image := options.image.map Image.unloaded,
    size := Size.zero,
    scale := 1 }

/-- `Window::gl_render` (src/window.rs lines 133-173): clear to the
background color; when an image is configured, fit it to the physical size
and draw its texture (loading it on first use).  Returns the updated
`image` slot and the GL effects in order. -/
def glRender (physical : Size Nat) (image : Option Image) (options : Options) :
    Option Image × List DrawOp :=
  let clearOps := [DrawOp.glClearColor ((options.color.r : ℚ) / 255)
                    ((options.color.g : ℚ) / 255) ((options.color.b : ℚ) / 255) 1,
                   DrawOp.glClear]
  match image with
  | none => (none, clearOps)
  | some img =>
      let physicalQ : Size ℚ := { width := physical.width, height := physical.height }
      let imageQ : Size ℚ := { width := img.sizeOf.width, height := img.sizeOf.height }
      let fit := imageFit physicalQ imageQ options.focus
      let loadRes := img.texture
      (some loadRes.1,
       clearOps ++ loadRes.2.2 ++ [DrawOp.glDrawTexture loadRes.2.1.id fit.1 fit.2])

/-- `Window::draw` (src/window.rs lines 106-130): update the viewport
destination, damage the full surface, then either attach the pre-created
single-pixel buffer or run the GPU path, and commit. -/
def Window.draw (w : Window) : Except String (Window × List DrawOp) :=
  let preOps := [DrawOp.setDestination w.size.width w.size.height,
                 DrawOp.damage w.size.width w.size.height]
  match w.spb_buffer with
  | some (r, g, b, a) =>
      Except.ok (w, preOps ++ [DrawOp.attachBuffer r g b a, DrawOp.commit])
  | none =>
      let physical := w.size.mulF64 w.scale
      let rendered := glRender physical w.image w.options
      (w.renderer.draw physical rendered.2).map fun res =>
        ({ w with renderer := res.1, image := rendered.1 },
         preOps ++ res.2 ++ [DrawOp.commit])

/-- `Window::set_size` (src/window.rs lines 176-193): early return when
the size is unchanged, else store the size, update the opaque-region hint
(protocol side effect, stateless here) and redraw.  The second component
counts redraws triggered by the call. -/
def Window.setSize (w : Window) (size : Size Nat) : Except String (Window × Nat) :=
  if w.size = size then
    Except.ok (w, 0)
  else
    (Window.draw { w with size := size }).map fun res => (res.1, 1)

/-- `Window::set_scale_factor` (src/window.rs lines 196-206): early
return when the scale is unchanged, else store it and redraw only when a
size is already known (differs from `Size::default()`). -/
def Window.setScaleFactor (w : Window) (scale : ℚ) : Except String (Window × Nat) :=
  if w.scale = scale then
    Except.ok (w, 0)
  else
    let w1 := { w with scale := scale }
    if w1.size ≠ Size.zero then
      (Window.draw w1).map fun res => (res.1, 1)
    else
      Except.ok (w1, 0)

/-! ## Wayland handlers (src/wayland/mod.rs) -/

/-- `State` (src/main.rs), restricted to what the handlers touch:
`fractionalScale` is `protocol_states.fractional_scale.is_some()`, fixed
at startup by `ProtocolStates::new`. -/
structure State where
  fractionalScale : Bool
  window : Window
  terminated : Bool
  deriving DecidableEq, Repr

/-- `CompositorHandler::scale_factor_changed`
(src/wayland/mod.rs lines 66-76): the integer scale factor is forwarded
only when the fractional-scale capability is absent. -/
def State.compositorScaleFactorChanged (st : State) (factor : Int) :
    Except String (State × Nat) :=
  if st.fractionalScale = false then
    (st.window.setScaleFactor (factor : ℚ)).map fun res =>
      ({ st with window := res.1 }, res.2)
  else
    Except.ok (st, 0)

/-- `FractionalScaleHandler::scale_factor_changed`
(src/wayland/mod.rs lines 166-176): always forwarded. -/
def State.fractionalScaleFactorChanged (st : State) (factor : ℚ) :
    Except String (State × Nat) :=
  (st.window.setScaleFactor factor).map fun res =>
    ({ st with window := res.1 }, res.2)

/-- `LayerShellHandler::configure` (src/wayland/mod.rs): forwards the new
size to `Window::set_size`. -/
def State.configure (st : State) (size : Size Nat) : Except String (State × Nat) :=
  (st.window.setSize size).map fun res => ({ st with window := res.1 }, res.2)

/-! ## Color parsing (src/cli.rs) -/

/-- Value of one hexadecimal digit, as accepted by
`u32::from_str_radix(_, 16)` (via `char::to_digit(16)`). -/
def hexDigitVal (c : Char) : Option Nat :=
  if 48 ≤ c.toNat ∧ c.toNat ≤ 57 then some (c.toNat - 48)
  else if 97 ≤ c.toNat ∧ c.toNat ≤ 102 then some (c.toNat - 87)
  else if 65 ≤ c.toNat ∧ c.toNat ≤ 70 then some (c.toNat - 55)
  else none

/-- Digit-accumulation loop of `u32::from_str_radix(_, 16)`: each step is
`checked_mul` by 16 then `checked_add` of the digit, failing on a
non-digit character or on `u32` overflow. -/
def parseHexDigits : List Char → Nat → Option Nat
  | [], acc => some acc
  | c :: rest, acc =>
      match hexDigitVal c with
      | none => none
      | some d =>
          if acc * 16 + d < 4294967296 then parseHexDigits rest (acc * 16 + d) else none

/-- `u32::from_str_radix(s, 16)`: empty input fails; a single leading
`'+'` is accepted when followed by at least one digit; `'-'` and any
other non-digit fail. -/
def u32FromStrRadix16 : List Char → Option Nat
  | [] => none
  | c :: rest =>
      if c = '+' then
        if rest = [] then none else parseHexDigits rest 0
      else
        parseHexDigits (c :: rest) 0

/-- `s.strip_prefix('#').unwrap_or(s)`: drop one leading `'#'`. -/
def stripHash (s : List Char) : List Char :=
  match s with
  | c :: rest => if c = '#' then rest else s
  | [] => s

/-- `Rgb::from_str` (src/cli.rs lines 33-57): strip an optional `'#'`,
require exactly 6 remaining characters, parse them as one hex number, and
split it into bytes. -/
def Rgb.fromStr (s : List Char) : Except String Rgb :=
  let color := stripHash s
  if color.length ≠ 6 then
    Except.error ("must contain exactly 6 hex digits")
  else
    match u32FromStrRadix16 color with
    | none => Except.error ("must only contain the characters 0-9 and a-f")
    | some combined =>
        Except.ok { r := (combined >>> 16) % 256,
                    g := (combined >>> 8) &&& 255,
                    b := combined &&& 255 }

/-! ## Theorems -/

/-- Branch lemma: width-constrained case of the image fit. -/
theorem imageFit_lt (V I : Size ℚ) (f : Position ℚ)
    (h : V.width / I.width < V.height / I.height) :
    imageFit V I f =
      (Position.mk ((V.width - I.width * (V.height / I.height)) * f.x) 0,
       Size.mk (I.width * (V.height / I.height)) V.height) := by
  simp [imageFit, h]

/-- Branch lemma: height-constrained case of the image fit. -/
theorem imageFit_ge (V I : Size ℚ) (f : Position ℚ)
    (h : ¬ V.width / I.width < V.height / I.height) :
    imageFit V I f =
      (Position.mk 0 ((V.height - I.height * (V.width / I.width)) * f.y),
       Size.mk V.width (I.height * (V.width / I.width))) := by
  simp [imageFit, h]

/-- C1: for positive viewport and image dimensions the image-fit
computation returns exactly the branch structure, scaled sizes and
offsets stated by the specification, and on viewport (1920,1080) with
image (800,600) the ratios are 2.4 and 1.8 so the `wr ≥ hr` branch is
taken. -/
theorem imageFit_refines_spec (V I : Size ℚ) (f : Position ℚ)
    (hVw : 0 < V.width) (hVh : 0 < V.height)
    (hIw : 0 < I.width) (hIh : 0 < I.height) :
    imageFit V I f = imageFitSpec V I f ∧
    (1920 : ℚ) / 800 = 12 / 5 ∧
    (1080 : ℚ) / 600 = 9 / 5 ∧
    ¬ (1920 : ℚ) / 800 < (1080 : ℚ) / 600 ∧
    imageFit (Size.mk 1920 1080) (Size.mk 800 600) (Position.mk (1/2) (1/2)) =
      (Position.mk 0 (-180), Size.mk 1920 1440) := by
  refine ⟨?_, by norm_num, by norm_num, by norm_num, ?_⟩
  case refine_2 =>
    rw [imageFit_ge (Size.mk 1920 1080) (Size.mk 800 600) (Position.mk (1/2) (1/2))
      (by norm_num)]
    simp only [Prod.mk.injEq, Position.mk.injEq, Size.mk.injEq]
    norm_num
  by_cases h : V.width / I.width < V.height / I.height
  · rw [imageFit_lt V I f h]
    simp [imageFitSpec, h]
  · rw [imageFit_ge V I f h]
    simp [imageFitSpec, h]

/-- Witness for `imageFit_refines_spec` at a concrete input. -/
theorem imageFit_refines_spec_witness :
    imageFit (Size.mk 1920 1080) (Size.mk 800 600) (Position.mk (1/2) (1/2)) =
      imageFitSpec (Size.mk 1920 1080) (Size.mk 800 600) (Position.mk (1/2) (1/2)) :=
  (imageFit_refines_spec (Size.mk 1920 1080) (Size.mk 800 600) (Position.mk (1/2) (1/2))
    (by norm_num) (by norm_num) (by norm_num) (by norm_num)).1

/-- C2 counterexample: on viewport (1920,1080), image (800,600), focus
(1/2, 1), the constrained (vertical) axis has scaled size 1440 and the
computed offset is -360, which does not lie in [0, 1440 - 1080] and is
not equal to 1440 - 1080 at focus 1 as the claim states. -/
theorem imageFit_offset_counterexample :
    imageFit (Size.mk 1920 1080) (Size.mk 800 600) (Position.mk (1/2) 1) =
      (Position.mk 0 (-360), Size.mk 1920 1440) ∧
    ¬ (0 ≤ (-360 : ℚ)) ∧
    (-360 : ℚ) ≠ 1440 - 1080 := by
  refine ⟨?_, by norm_num, by norm_num⟩
  rw [imageFit_ge (Size.mk 1920 1080) (Size.mk 800 600) (Position.mk (1/2) 1)
    (by norm_num)]
  simp only [Prod.mk.injEq, Position.mk.injEq, Size.mk.injEq]
  norm_num

/-- C2 amended: for positive dimensions and focus components in [0,1],
the offset on each axis lies in [viewport_axis - scaled_axis, 0] (the
negation of the claimed interval); it is 0 when the focus component is 0
and viewport_axis - scaled_axis when the focus component is 1. -/
theorem imageFit_offset_bounds (V I : Size ℚ) (f : Position ℚ)
    (hVw : 0 < V.width) (hVh : 0 < V.height)
    (hIw : 0 < I.width) (hIh : 0 < I.height)
    (hx0 : 0 ≤ f.x) (hx1 : f.x ≤ 1) (hy0 : 0 ≤ f.y) (hy1 : f.y ≤ 1) :
    (V.width - (imageFit V I f).2.width ≤ (imageFit V I f).1.x ∧
      (imageFit V I f).1.x ≤ 0) ∧
    (V.height - (imageFit V I f).2.height ≤ (imageFit V I f).1.y ∧
      (imageFit V I f).1.y ≤ 0) ∧
    (f.x = 0 → (imageFit V I f).1.x = 0) ∧
    (f.y = 0 → (imageFit V I f).1.y = 0) ∧
    (f.x = 1 → (imageFit V I f).1.x = V.width - (imageFit V I f).2.width) ∧
    (f.y = 1 → (imageFit V I f).1.y = V.height - (imageFit V I f).2.height) := by
  by_cases h : V.width / I.width < V.height / I.height
  · rw [imageFit_lt V I f h]
    have hVI : V.width < I.width * (V.height / I.height) := by
      have h2 : V.width / I.width * I.width < V.height / I.height * I.width :=
        mul_lt_mul_of_pos_right h hIw
      rw [div_mul_cancel₀ _ (ne_of_gt hIw)] at h2
      linarith [h2]
    refine ⟨⟨?_, ?_⟩, ⟨by simp, by simp⟩, ?_, by simp, ?_, by simp⟩
    · simp only
      nlinarith
    · simp only
      nlinarith
    · intro hfx
      simp [hfx]
    · intro hfx
      simp [hfx]
  · rw [imageFit_ge V I f h]
    have hge : V.height / I.height ≤ V.width / I.width := le_of_not_lt h
    have hVI : V.height ≤ I.height * (V.width / I.width) := by
      have h2 : V.height / I.height * I.height ≤ V.width / I.width * I.height :=
        mul_le_mul_of_nonneg_right hge (le_of_lt hIh)
      rw [div_mul_cancel₀ _ (ne_of_gt hIh)] at h2
      linarith [h2]
    refine ⟨⟨by simp, by simp⟩, ⟨?_, ?_⟩, by simp, ?_, by simp, ?_⟩
    · simp only
      nlinarith
    · simp only
      nlinarith
    · intro hfy
      simp [hfy]
    · intro hfy
      simp [hfy]

/-- Witness for `imageFit_offset_bounds` at a concrete input. -/
theorem imageFit_offset_bounds_witness :
    (1920 : ℚ) - (imageFit (Size.mk 1920 1080) (Size.mk 800 600)
        (Position.mk (1/2) (1/2))).2.width ≤
      (imageFit (Size.mk 1920 1080) (Size.mk 800 600) (Position.mk (1/2) (1/2))).1.x :=
  ((imageFit_offset_bounds (Size.mk 1920 1080) (Size.mk 800 600) (Position.mk (1/2) (1/2))
    (by norm_num) (by norm_num) (by norm_num) (by norm_num)
    (by norm_num) (by norm_num) (by norm_num) (by norm_num)).1).1

/-- A hexadecimal digit value is below 16. -/
theorem hexDigitVal_lt16 {c : Char} {d : Nat} (h : hexDigitVal c = some d) : d < 16 := by
  unfold hexDigitVal at h
  split_ifs at h with h1 h2 h3 <;>
    simp only [Option.some.injEq, reduceCtorEq] at h <;> omega

/-- A character with a hex value is not `'+'`. -/
theorem hexDigitVal_ne_plus {c : Char} {d : Nat} (h : hexDigitVal c = some d) : ¬ c = '+' := by
  intro hc
  subst hc
  rw [show hexDigitVal '+' = none from rfl] at h
  exact Option.noConfusion h

/-- A character with a hex value is not `'#'`. -/
theorem hexDigitVal_ne_hash {c : Char} {d : Nat} (h : hexDigitVal c = some d) : ¬ c = '#' := by
  intro hc
  subst hc
  rw [show hexDigitVal '#' = none from rfl] at h
  exact Option.noConfusion h

/-- Unfolding step of the hex accumulation loop below the overflow bound. -/
theorem parseHexDigits_cons {c : Char} {d : Nat} (rest : List Char) (acc : Nat)
    (h : hexDigitVal c = some d) (hacc : acc < 268435456) :
    parseHexDigits (c :: rest) acc = parseHexDigits rest (acc * 16 + d) := by
  have hd := hexDigitVal_lt16 h
  have hlt : acc * 16 + d < 4294967296 := by omega
  simp [parseHexDigits, h, hlt]

/-- A non-hex character anywhere in the input makes the accumulation loop
fail. -/
theorem parseHexDigits_none_of_mem {c : Char} (hc : hexDigitVal c = none) :
    ∀ (l : List Char) (acc : Nat), c ∈ l → parseHexDigits l acc = none := by
  intro l
  induction l with
  | nil => intro acc hm; cases hm
  | cons a rest ih =>
      intro acc hm
      rcases List.mem_cons.mp hm with rfl | hmem
      · simp [parseHexDigits, hc]
      · unfold parseHexDigits
        cases ha : hexDigitVal a with
        | none => rfl
        | some d =>
            simp only
            by_cases hov : acc * 16 + d < 4294967296
            · simp only [if_pos hov]
              exact ih _ hmem
            · simp only [if_neg hov]

/-- Value of the hex accumulation loop on six digit characters. -/
theorem parseHexDigits6 {c0 c1 c2 c3 c4 c5 : Char} {d0 d1 d2 d3 d4 d5 : Nat}
    (h0 : hexDigitVal c0 = some d0) (h1 : hexDigitVal c1 = some d1)
    (h2 : hexDigitVal c2 = some d2) (h3 : hexDigitVal c3 = some d3)
    (h4 : hexDigitVal c4 = some d4) (h5 : hexDigitVal c5 = some d5) :
    parseHexDigits [c0, c1, c2, c3, c4, c5] 0 =
      some ((16 * d0 + d1) * 65536 + (16 * d2 + d3) * 256 + (16 * d4 + d5)) := by
  have b0 := hexDigitVal_lt16 h0
  have b1 := hexDigitVal_lt16 h1
  have b2 := hexDigitVal_lt16 h2
  have b3 := hexDigitVal_lt16 h3
  have b4 := hexDigitVal_lt16 h4
  have b5 := hexDigitVal_lt16 h5
  rw [parseHexDigits_cons _ _ h0 (by omega), parseHexDigits_cons _ _ h1 (by omega),
    parseHexDigits_cons _ _ h2 (by omega), parseHexDigits_cons _ _ h3 (by omega),
    parseHexDigits_cons _ _ h4 (by omega), parseHexDigits_cons _ _ h5 (by omega)]
  simp only [parseHexDigits, Option.some.injEq]
  ring

/-- Value of the hex accumulation loop on five digit characters (the
tail of an input whose first character is `'+'`). -/
theorem parseHexDigits5 {c0 c1 c2 c3 c4 : Char} {d0 d1 d2 d3 d4 : Nat}
    (h0 : hexDigitVal c0 = some d0) (h1 : hexDigitVal c1 = some d1)
    (h2 : hexDigitVal c2 = some d2) (h3 : hexDigitVal c3 = some d3)
    (h4 : hexDigitVal c4 = some d4) :
    parseHexDigits [c0, c1, c2, c3, c4] 0 =
      some (d0 * 65536 + (16 * d1 + d2) * 256 + (16 * d3 + d4)) := by
  have b0 := hexDigitVal_lt16 h0
  have b1 := hexDigitVal_lt16 h1
  have b2 := hexDigitVal_lt16 h2
  have b3 := hexDigitVal_lt16 h3
  have b4 := hexDigitVal_lt16 h4
  rw [parseHexDigits_cons _ _ h0 (by omega), parseHexDigits_cons _ _ h1 (by omega),
    parseHexDigits_cons _ _ h2 (by omega), parseHexDigits_cons _ _ h3 (by omega),
    parseHexDigits_cons _ _ h4 (by omega)]
  simp only [parseHexDigits, Option.some.injEq]
  ring

/-- Mask by 255 is reduction modulo 256. -/
theorem nat_and_255 (x : Nat) : x &&& 255 = x % 256 := by
  have h := Nat.and_pow_two_sub_one_eq_mod x 8
  norm_num at h
  exact h

/-- Bytes extracted from a six-digit hex value. -/
theorem rgb_bytes_of_combined (d0 d1 d2 d3 d4 d5 : Nat)
    (b0 : d0 < 16) (b1 : d1 < 16) (b2 : d2 < 16) (b3 : d3 < 16) (b4 : d4 < 16) (b5 : d5 < 16) :
    (((16 * d0 + d1) * 65536 + (16 * d2 + d3) * 256 + (16 * d4 + d5)) >>> 16) % 256
        = 16 * d0 + d1 ∧
    (((16 * d0 + d1) * 65536 + (16 * d2 + d3) * 256 + (16 * d4 + d5)) >>> 8) &&& 255
        = 16 * d2 + d3 ∧
    ((16 * d0 + d1) * 65536 + (16 * d2 + d3) * 256 + (16 * d4 + d5)) &&& 255
        = 16 * d4 + d5 := by
  refine ⟨by omega, ?_, ?_⟩ <;> rw [nat_and_255] <;> omega

/-- C8 counterexample: the six-character input "+12345" contains the
non-hex character `'+'`, yet `Rgb::from_str` accepts it, because
`u32::from_str_radix` allows one leading `'+'` sign. -/
theorem rgbFromStr_plus_counterexample :
    Rgb.fromStr ['+', '1', '2', '3', '4', '5'] = Except.ok (Rgb.mk 1 35 69) ∧
    hexDigitVal '+' = none := by
  exact ⟨rfl, rfl⟩

/-- C8 amended: six hex digits with an optional leading `'#'` parse to
the exact byte triple of the three two-digit components; a remainder of
length other than 6 is rejected with the length error; a length-6
remainder containing a non-hex character is rejected with the digit
error, except that a single leading `'+'` followed by five hex digits is
accepted (with the `'+'` counted in the length). -/
theorem rgbFromStr_amended (c0 c1 c2 c3 c4 c5 : Char) (d0 d1 d2 d3 d4 d5 : Nat)
    (h0 : hexDigitVal c0 = some d0) (h1 : hexDigitVal c1 = some d1)
    (h2 : hexDigitVal c2 = some d2) (h3 : hexDigitVal c3 = some d3)
    (h4 : hexDigitVal c4 = some d4) (h5 : hexDigitVal c5 = some d5) :
    (Rgb.fromStr ['#', c0, c1, c2, c3, c4, c5] =
        Except.ok (Rgb.mk (16 * d0 + d1) (16 * d2 + d3) (16 * d4 + d5)) ∧
      Rgb.fromStr [c0, c1, c2, c3, c4, c5] =
        Except.ok (Rgb.mk (16 * d0 + d1) (16 * d2 + d3) (16 * d4 + d5))) ∧
    (∀ s : List Char, (stripHash s).length ≠ 6 →
        Rgb.fromStr s = Except.error ("must contain exactly 6 hex digits")) ∧
    (∀ (s : List Char) (c : Char), (stripHash s).length = 6 →
        c ∈ (stripHash s).tail → hexDigitVal c = none →
        Rgb.fromStr s = Except.error ("must only contain the characters 0-9 and a-f")) ∧
    (∀ (s : List Char) (c : Char), (stripHash s).length = 6 →
        (stripHash s).head? = some c → hexDigitVal c = none → c ≠ '+' →
        Rgb.fromStr s = Except.error ("must only contain the characters 0-9 and a-f")) ∧
    Rgb.fromStr ('+' :: [c0, c1, c2, c3, c4]) =
      Except.ok (Rgb.mk d0 (16 * d1 + d2) (16 * d3 + d4)) := by
  have b0 := hexDigitVal_lt16 h0
  have b1 := hexDigitVal_lt16 h1
  have b2 := hexDigitVal_lt16 h2
  have b3 := hexDigitVal_lt16 h3
  have b4 := hexDigitVal_lt16 h4
  have b5 := hexDigitVal_lt16 h5
  have hbare : Rgb.fromStr [c0, c1, c2, c3, c4, c5] =
      Except.ok (Rgb.mk (16 * d0 + d1) (16 * d2 + d3) (16 * d4 + d5)) := by
    unfold Rgb.fromStr
    rw [show stripHash [c0, c1, c2, c3, c4, c5] = [c0, c1, c2, c3, c4, c5] by
      simp [stripHash, hexDigitVal_ne_hash h0]]
    simp only [List.length_cons, List.length_nil]
    rw [if_neg (by omega)]
    rw [show u32FromStrRadix16 [c0, c1, c2, c3, c4, c5] =
        parseHexDigits [c0, c1, c2, c3, c4, c5] 0 by
      simp [u32FromStrRadix16, hexDigitVal_ne_plus h0]]
    rw [parseHexDigits6 h0 h1 h2 h3 h4 h5]
    have hbytes := rgb_bytes_of_combined d0 d1 d2 d3 d4 d5 b0 b1 b2 b3 b4 b5
    simp only [Except.ok.injEq, Rgb.mk.injEq]
    exact ⟨hbytes.1, hbytes.2.1, hbytes.2.2⟩
  refine ⟨⟨?_, hbare⟩, ?_, ?_, ?_, ?_⟩
  · unfold Rgb.fromStr
    rw [show stripHash ('#' :: [c0, c1, c2, c3, c4, c5]) = [c0, c1, c2, c3, c4, c5] by
      simp [stripHash]]
    unfold Rgb.fromStr at hbare
    rw [show stripHash [c0, c1, c2, c3, c4, c5] = [c0, c1, c2, c3, c4, c5] by
      simp [stripHash, hexDigitVal_ne_hash h0]] at hbare
    exact hbare
  · intro s hlen
    unfold Rgb.fromStr
    rw [if_pos hlen]
  · intro s c hlen hmem hc
    unfold Rgb.fromStr
    rw [if_neg (by omega)]
    have hnone : u32FromStrRadix16 (stripHash s) = none := by
      cases hl : stripHash s with
      | nil => simp [hl] at hlen
      | cons a rest =>
          rw [hl] at hmem
          simp only [List.tail_cons] at hmem
          rw [show u32FromStrRadix16 (a :: rest) =
            (if a = '+' then (if rest = [] then none else parseHexDigits rest 0)
             else parseHexDigits (a :: rest) 0) from rfl]
          by_cases ha : a = '+'
          · rw [if_pos ha]
            have hrest : rest ≠ [] := by
              rw [hl] at hlen
              simp at hlen
              intro hr
              rw [hr] at hlen
              simp at hlen
            rw [if_neg ?_]
            · exact parseHexDigits_none_of_mem hc rest 0 hmem
            · exact hrest
          · rw [if_neg ha]
            exact parseHexDigits_none_of_mem hc (a :: rest) 0 (List.mem_cons_of_mem a hmem)
    rw [hnone]
  · intro s c hlen hhead hc hplus
    unfold Rgb.fromStr
    rw [if_neg (by omega)]
    have hnone : u32FromStrRadix16 (stripHash s) = none := by
      cases hl : stripHash s with
      | nil => simp [hl] at hhead
      | cons a rest =>
          rw [hl] at hhead
          simp only [List.head?_cons, Option.some.injEq] at hhead
          have ha' : a ≠ '+' := by rw [hhead]; exact hplus
          have hca : hexDigitVal a = none := by rw [hhead]; exact hc
          rw [show u32FromStrRadix16 (a :: rest) =
            (if a = '+' then (if rest = [] then none else parseHexDigits rest 0)
             else parseHexDigits (a :: rest) 0) from rfl]
          rw [if_neg ha']
          exact parseHexDigits_none_of_mem hca (a :: rest) 0 (List.mem_cons_self a rest)
    rw [hnone]
  · unfold Rgb.fromStr
    rw [show stripHash ('+' :: [c0, c1, c2, c3, c4]) = '+' :: [c0, c1, c2, c3, c4] by
      simp [stripHash]]
    simp only [List.length_cons, List.length_nil]
    rw [if_neg (by omega)]
    rw [show u32FromStrRadix16 ('+' :: [c0, c1, c2, c3, c4]) =
        parseHexDigits [c0, c1, c2, c3, c4] 0 by simp [u32FromStrRadix16]]
    rw [parseHexDigits5 h0 h1 h2 h3 h4]
    have hbytes := rgb_bytes_of_combined 0 d0 d1 d2 d3 d4 (by omega) b0 b1 b2 b3 b4
    simp only [Except.ok.injEq, Rgb.mk.injEq]
    refine ⟨?_, ?_, ?_⟩
    · have := hbytes.1
      omega
    · have := hbytes.2.1
      rw [nat_and_255] at this ⊢
      omega
    · have := hbytes.2.2
      rw [nat_and_255] at this ⊢
      omega

/-- Witness for `rgbFromStr_amended`: "#ff0000" parses to (255, 0, 0). -/
theorem rgbFromStr_amended_witness :
    Rgb.fromStr ['#', 'f', 'f', '0', '0', '0', '0'] = Except.ok (Rgb.mk 255 0 0) := by
  have h := (rgbFromStr_amended 'f' 'f' '0' '0' '0' '0' 15 15 0 0 0 0
    rfl rfl rfl rfl rfl rfl).1.1
  norm_num at h
  exact h

/-- C9: each single-pixel-buffer color channel is the 8-bit channel
value times (2^32 - 1) / 255 = 16843009, mapping 0 to 0 and 255 to
2^32 - 1, and the alpha channel of the buffer is always u32::MAX. -/
theorem spbChannel_exact (c : Nat) (hc : c ≤ 255) :
    spbChannel c = c * ((2 ^ 32 - 1) / 255) ∧
    spbChannel c = c * 16843009 ∧
    spbChannel 0 = 0 ∧
    spbChannel 255 = 4294967295 ∧
    ∀ (avail : Bool) (opts : Options) (r g b a : Nat),
      (Window.mkNew avail opts).spb_buffer = some (r, g, b, a) → a = 4294967295 := by
  have hmain : spbChannel c = c * 16843009 := by
    unfold spbChannel u32Max
    omega
  refine ⟨?_, hmain, by norm_num [spbChannel, u32Max], by norm_num [spbChannel, u32Max], ?_⟩
  · rw [hmain]
    norm_num
  · intro avail opts r g b a h
    unfold Window.mkNew at h
    by_cases hcond : avail && opts.image.isNone
    · simp only [hcond, if_true, Option.some.injEq, Prod.mk.injEq] at h
      exact h.2.2.2.symm.trans rfl
    · simp [hcond] at h

/-- Witness for `spbChannel_exact` at channel value 255. -/
theorem spbChannel_exact_witness : spbChannel 255 = 255 * 16843009 :=
  (spbChannel_exact 255 (by norm_num)).2.1

/-- Reduction of `Except` bind on a success value. -/
theorem exbind_ok {α β : Type} (a : α) (f : α → Except String β) :
    (Except.ok a : Except String α) >>= f = f a := rfl

/-- Reduction of `Except` bind on an error value. -/
theorem exbind_err {α β : Type} (e : String) (f : α → Except String β) :
    (Except.error e : Except String α) >>= f = Except.error e := rfl

/-- Reduction of `Except.map` on a success value. -/
theorem exmap_ok {α β : Type} (a : α) (f : α → β) :
    (Except.ok a : Except String α).map f = Except.ok (f a) := rfl

/-- Reduction of `Except.map` on an error value. -/
theorem exmap_err {α β : Type} (e : String) (f : α → β) :
    (Except.error e : Except String α).map f = Except.error e := rfl

/-- Step lemma: creating the sized state on first use. -/
theorem sizedStep_create (n : Nat) (s : Size Nat) (hw : 0 < s.width) (hh : 0 < s.height) :
    Renderer.sizedStep { sized := none, nextCtxId := n } s =
      Except.ok ({ sized := some { ctxId := n, size := s }, nextCtxId := n + 1 },
        SizedEvent.created) := by
  simp [Renderer.sizedStep, SizedRenderer.mkNew, hw, hh, exmap_ok]

/-- Step lemma: a zero dimension on first use fails the assertion. -/
theorem sizedStep_create_fail (n : Nat) (s : Size Nat) (hz : ¬ (0 < s.width ∧ 0 < s.height)) :
    Renderer.sizedStep { sized := none, nextCtxId := n } s =
      Except.error ("assertion failed: size.width > 0 && size.height > 0") := by
  simp only [Renderer.sizedStep, SizedRenderer.mkNew, if_neg hz, exmap_err]

/-- `getLastD` peels one cons. -/
theorem getLastD_cons_eq {α : Type} (a d : α) (l : List α) :
    (a :: l).getLastD d = l.getLastD a := by
  cases l <;> simp [List.getLastD]

/-- Step lemma: a resize to the currently stored size is a no-op. -/
theorem sizedStep_noop (n : Nat) (sz : SizedRenderer) :
    Renderer.sizedStep { sized := some sz, nextCtxId := n } sz.size =
      Except.ok ({ sized := some sz, nextCtxId := n }, SizedEvent.noop) := by
  simp [Renderer.sizedStep, SizedRenderer.resize, exmap_ok]

/-- Step lemma: an actual resize keeps the context token and stores the
new size in place. -/
theorem sizedStep_resize (n : Nat) (sz : SizedRenderer) (s : Size Nat)
    (hne : sz.size ≠ s) (hw : 0 < s.width) (hh : 0 < s.height) :
    Renderer.sizedStep { sized := some sz, nextCtxId := n } s =
      Except.ok ({ sized := some { ctxId := sz.ctxId, size := s }, nextCtxId := n },
        SizedEvent.resized) := by
  have hw' : ¬ s.width = 0 := by omega
  have hh' : ¬ s.height = 0 := by omega
  simp [Renderer.sizedStep, SizedRenderer.resize, hne, hw', hh', exmap_ok]

/-- Step lemma: a resize to a size with a zero dimension fails the
`NonZeroU32` unwrap. -/
theorem sizedStep_resize_fail (n : Nat) (sz : SizedRenderer) (s : Size Nat)
    (hne : sz.size ≠ s) (hz : s.width = 0 ∨ s.height = 0) :
    ∃ msg, Renderer.sizedStep { sized := some sz, nextCtxId := n } s = Except.error msg := by
  by_cases hw0 : s.width = 0
  · refine ⟨"called Option.unwrap on a None value (NonZeroU32 width)", ?_⟩
    simp only [Renderer.sizedStep, SizedRenderer.resize, if_neg hne, if_pos hw0, exmap_err]
  · have hh0 : s.height = 0 := by
      cases hz with
      | inl h0 => exact absurd h0 hw0
      | inr h0 => exact h0
    refine ⟨"called Option.unwrap on a None value (NonZeroU32 height)", ?_⟩
    simp only [Renderer.sizedStep, SizedRenderer.resize, if_neg hne, if_neg hw0,
      if_pos hh0, exmap_err]

/-- A successful draw from a sized renderer keeps the context token and
leaves the stored size equal to the drawn size. -/
theorem renderer_draw_sized (n : Nat) (sz : SizedRenderer) (s : Size Nat) (c : List DrawOp)
    (hw : 0 < s.width) (hh : 0 < s.height) :
    Renderer.draw { sized := some sz, nextCtxId := n } s c =
      Except.ok ({ sized := some { ctxId := sz.ctxId, size := s }, nextCtxId := n },
        DrawOp.glViewport s.width s.height ::
          (c ++ [DrawOp.glFlush, DrawOp.swapBuffers])) := by
  by_cases hsz : sz.size = s
  · subst hsz
    unfold Renderer.draw
    simp only [sizedStep_noop n sz, exbind_ok]
  · unfold Renderer.draw
    simp only [sizedStep_resize n sz s hsz hw hh, exbind_ok]
    have h2 := sizedStep_noop n { ctxId := sz.ctxId, size := s }
    simp only at h2
    simp only [h2, exbind_ok]

/-- A successful first draw creates the sized state with a fresh context
token. -/
theorem renderer_draw_create (n : Nat) (s : Size Nat) (c : List DrawOp)
    (hw : 0 < s.width) (hh : 0 < s.height) :
    Renderer.draw { sized := none, nextCtxId := n } s c =
      Except.ok ({ sized := some { ctxId := n, size := s }, nextCtxId := n + 1 },
        DrawOp.glViewport s.width s.height ::
          (c ++ [DrawOp.glFlush, DrawOp.swapBuffers])) := by
  unfold Renderer.draw
  simp only [sizedStep_create n s hw hh, exbind_ok]
  have h2 := sizedStep_noop (n + 1) { ctxId := n, size := s }
  simp only at h2
  simp only [h2, exbind_ok]

/-- Draw sequences from a sized renderer keep the context token and end
at the last drawn size. -/
theorem drawSeq_sized (sizes : List (Size Nat)) :
    ∀ (n id : Nat) (s0 : Size Nat),
      (∀ s ∈ sizes, 0 < s.width ∧ 0 < s.height) →
      Renderer.drawSeq { sized := some { ctxId := id, size := s0 }, nextCtxId := n } sizes =
        Except.ok { sized := some { ctxId := id, size := sizes.getLastD s0 }, nextCtxId := n } := by
  induction sizes with
  | nil => intro n id s0 _; rfl
  | cons s rest ih =>
      intro n id s0 hpos
      obtain ⟨hw, hh⟩ := hpos s (List.mem_cons_self s rest)
      unfold Renderer.drawSeq
      rw [renderer_draw_sized n { ctxId := id, size := s0 } s [] hw hh]
      rw [exbind_ok]
      simp only
      rw [ih n id s (fun x hx => hpos x (List.mem_cons_of_mem s hx))]
      rw [getLastD_cons_eq s s0 rest]

/-- C6: starting uninitialized, a nonempty sequence of draws with
positive sizes creates the surface/context pair exactly once (the
allocator advances by exactly one and the final context token is the one
allocated at the first draw), a resize to the current size is a no-op,
any other resize updates the existing pair in place without recreating
it, and the stored size after the sequence is the last drawn size. -/
theorem renderer_state_machine :
    (∀ (r r' : Renderer) (sizes : List (Size Nat)),
       r.sized = none → sizes ≠ [] →
       (∀ s ∈ sizes, 0 < s.width ∧ 0 < s.height) →
       r.drawSeq sizes = Except.ok r' →
       r'.sized = some { ctxId := r.nextCtxId, size := sizes.getLastD Size.zero } ∧
       r'.nextCtxId = r.nextCtxId + 1) ∧
    (∀ (n : Nat) (sz : SizedRenderer),
       Renderer.sizedStep { sized := some sz, nextCtxId := n } sz.size =
         Except.ok ({ sized := some sz, nextCtxId := n }, SizedEvent.noop)) ∧
    (∀ (n : Nat) (sz : SizedRenderer) (s : Size Nat), 0 < s.width → 0 < s.height →
       ∃ ev, Renderer.sizedStep { sized := some sz, nextCtxId := n } s =
         Except.ok ({ sized := some { ctxId := sz.ctxId, size := s }, nextCtxId := n }, ev) ∧
         ev ≠ SizedEvent.created) := by
  refine ⟨?_, sizedStep_noop, ?_⟩
  · intro r r' sizes hnone hne hpos hok
    obtain ⟨rs, n⟩ := r
    simp only at hnone
    subst hnone
    cases sizes with
    | nil => exact absurd rfl hne
    | cons s rest =>
        obtain ⟨hw, hh⟩ := hpos s (List.mem_cons_self s rest)
        unfold Renderer.drawSeq at hok
        rw [renderer_draw_create n s [] hw hh] at hok
        rw [exbind_ok] at hok
        simp only at hok
        rw [drawSeq_sized rest (n + 1) n s
          (fun x hx => hpos x (List.mem_cons_of_mem s hx))] at hok
        simp only [Except.ok.injEq] at hok
        subst hok
        rw [getLastD_cons_eq s Size.zero rest]
        exact ⟨rfl, rfl⟩
  · intro n sz s hw hh
    by_cases hsz : sz.size = s
    · refine ⟨SizedEvent.noop, ?_, by simp⟩
      subst hsz
      have h1 := sizedStep_noop n sz
      have hsz2 : ({ ctxId := sz.ctxId, size := sz.size } : SizedRenderer) = sz := rfl
      rw [hsz2]
      exact h1
    · exact ⟨SizedEvent.resized, sizedStep_resize n sz s hsz hw hh, by simp⟩

/-- Witness for `renderer_state_machine`: a grow-shrink-grow draw
sequence from the uninitialized renderer. -/
theorem renderer_state_machine_witness :
    ({ sized := some { ctxId := 0, size := Size.mk 3 3 }, nextCtxId := 1 } : Renderer).sized =
      some { ctxId := Renderer.new.nextCtxId,
             size := List.getLastD [Size.mk 2 2, Size.mk 1 1, Size.mk 3 3] Size.zero } ∧
    ({ sized := some { ctxId := 0, size := Size.mk 3 3 }, nextCtxId := 1 } : Renderer).nextCtxId =
      Renderer.new.nextCtxId + 1 :=
  renderer_state_machine.1 Renderer.new
    { sized := some { ctxId := 0, size := Size.mk 3 3 }, nextCtxId := 1 }
    [Size.mk 2 2, Size.mk 1 1, Size.mk 3 3]
    rfl (by simp) (by decide) (by rfl)

/-- Positivity of stored sizes is preserved by `Renderer::sized`. -/
theorem sizedStep_posInv {r r1 : Renderer} {s : Size Nat} {ev : SizedEvent}
    (hr : Renderer.posInv r) (h : r.sizedStep s = Except.ok (r1, ev)) :
    Renderer.posInv r1 := by
  obtain ⟨rs, n⟩ := r
  cases rs with
  | none =>
      by_cases hp : 0 < s.width ∧ 0 < s.height
      · rw [sizedStep_create n s hp.1 hp.2] at h
        simp only [Except.ok.injEq, Prod.mk.injEq] at h
        intro sz hsz
        rw [← h.1] at hsz
        simp only [Option.some.injEq] at hsz
        rw [← hsz]
        exact hp
      · rw [sizedStep_create_fail n s hp] at h
        exact Except.noConfusion h
  | some sz0 =>
      by_cases hsame : sz0.size = s
      · subst hsame
        rw [sizedStep_noop n sz0] at h
        simp only [Except.ok.injEq, Prod.mk.injEq] at h
        intro sz hsz
        rw [← h.1] at hsz
        exact hr sz hsz
      · by_cases hp : 0 < s.width ∧ 0 < s.height
        · rw [sizedStep_resize n sz0 s hsame hp.1 hp.2] at h
          simp only [Except.ok.injEq, Prod.mk.injEq] at h
          intro sz hsz
          rw [← h.1] at hsz
          simp only [Option.some.injEq] at hsz
          rw [← hsz]
          exact hp
        · exfalso
          obtain ⟨msg, hmsg⟩ := sizedStep_resize_fail n sz0 s hsame (by omega)
          rw [hmsg] at h
          exact Except.noConfusion h

/-- C10: every draw through the renderer needs strictly positive
dimensions: starting from the positivity invariant (which holds at
`Renderer::new` and is preserved by successful draws), a draw whose size
has a zero width or height panics — embedded as `Except.error`, raised by
the failed `assert!` in `create_surface` or the failed `NonZeroU32`
unwrap in `resize` — instead of rendering or returning a value. -/
theorem renderer_draw_zero_panics :
    Renderer.posInv Renderer.new ∧
    (∀ (r r' : Renderer) (s : Size Nat) (c ops : List DrawOp),
       Renderer.posInv r → r.draw s c = Except.ok (r', ops) → Renderer.posInv r') ∧
    (∀ (r : Renderer) (s : Size Nat) (c : List DrawOp),
       Renderer.posInv r → s.width = 0 ∨ s.height = 0 →
       ∃ msg, r.draw s c = Except.error msg) := by
  refine ⟨?_, ?_, ?_⟩
  · intro sz h
    simp [Renderer.new] at h
  · intro r r' s c ops hr hok
    unfold Renderer.draw at hok
    cases h1 : r.sizedStep s with
    | error e =>
        rw [h1] at hok
        rw [exbind_err] at hok
        exact Except.noConfusion hok
    | ok p =>
        rw [h1] at hok
        rw [exbind_ok] at hok
        obtain ⟨r1, ev1⟩ := p
        simp only at hok
        cases h2 : r1.sizedStep s with
        | error e =>
            rw [h2] at hok
            rw [exbind_err] at hok
            exact Except.noConfusion hok
        | ok q =>
            rw [h2] at hok
            rw [exbind_ok] at hok
            obtain ⟨r2, ev2⟩ := q
            simp only [Except.ok.injEq, Prod.mk.injEq] at hok
            rw [← hok.1]
            exact sizedStep_posInv (sizedStep_posInv hr h1) h2
  · intro r s c hr hzero
    obtain ⟨rs, n⟩ := r
    cases rs with
    | none =>
        refine ⟨"assertion failed: size.width > 0 && size.height > 0", ?_⟩
        unfold Renderer.draw
        rw [sizedStep_create_fail n s (by omega)]
        rw [exbind_err]
    | some sz =>
        have hpos := hr sz rfl
        have hne : sz.size ≠ s := by
          intro he
          rw [he] at hpos
          omega
        obtain ⟨msg, hmsg⟩ := sizedStep_resize_fail n sz s hne hzero
        refine ⟨msg, ?_⟩
        unfold Renderer.draw
        rw [hmsg, exbind_err]

/-- Witness for `renderer_draw_zero_panics`: drawing at size (0, 5) from
a fresh renderer fails. -/
theorem renderer_draw_zero_panics_witness :
    ∃ msg, Renderer.draw Renderer.new (Size.mk 0 5) [] = Except.error msg :=
  renderer_draw_zero_panics.2.2 Renderer.new (Size.mk 0 5) []
    renderer_draw_zero_panics.1 (Or.inl rfl)

/-- Shape of `gl_render` with no image configured. -/
theorem glRender_none (p : Size Nat) (o : Options) :
    glRender p none o =
      (none,
       [DrawOp.glClearColor ((o.color.r : ℚ) / 255) ((o.color.g : ℚ) / 255)
          ((o.color.b : ℚ) / 255) 1,
        DrawOp.glClear]) := rfl

/-- Shape of `gl_render` with an image configured: clear, load the
texture if needed, draw it at the fitted position and size. -/
theorem glRender_some (p : Size Nat) (img : Image) (o : Options) :
    glRender p (some img) o =
      (some img.texture.1,
       [DrawOp.glClearColor ((o.color.r : ℚ) / 255) ((o.color.g : ℚ) / 255)
          ((o.color.b : ℚ) / 255) 1,
        DrawOp.glClear] ++ img.texture.2.2 ++
        [DrawOp.glDrawTexture img.texture.2.1.id
          (imageFit { width := (p.width : ℚ), height := (p.height : ℚ) }
            { width := (img.sizeOf.width : ℚ), height := (img.sizeOf.height : ℚ) } o.focus).1
          (imageFit { width := (p.width : ℚ), height := (p.height : ℚ) }
            { width := (img.sizeOf.width : ℚ), height := (img.sizeOf.height : ℚ) } o.focus).2]) :=
  rfl

/-- `Window::draw` on the flat-color path: attach the pre-created buffer
and commit; the window state is untouched. -/
theorem window_draw_flat (w : Window) (r g b a : Nat)
    (h : w.spb_buffer = some (r, g, b, a)) :
    w.draw = Except.ok (w,
      [DrawOp.setDestination w.size.width w.size.height,
       DrawOp.damage w.size.width w.size.height,
       DrawOp.attachBuffer r g b a, DrawOp.commit]) := by
  unfold Window.draw
  rw [h]
  rfl

/-- `Window::draw` on the GPU path, as a `map` over `Renderer::draw`. -/
theorem window_draw_gpu_eq (w : Window) (h : w.spb_buffer = none) :
    w.draw = (w.renderer.draw (w.size.mulF64 w.scale)
        (glRender (w.size.mulF64 w.scale) w.image w.options).2).map
      (fun res =>
        ({ w with renderer := res.1,
                  image := (glRender (w.size.mulF64 w.scale) w.image w.options).1 },
         [DrawOp.setDestination w.size.width w.size.height,
          DrawOp.damage w.size.width w.size.height] ++ res.2 ++ [DrawOp.commit])) := by
  unfold Window.draw
  rw [h]

/-- A successful `Renderer::draw` returns exactly the viewport set, the
closure effects, the flush and the buffer swap. -/
theorem renderer_draw_ok_shape {r r' : Renderer} {s : Size Nat} {c ops : List DrawOp}
    (h : r.draw s c = Except.ok (r', ops)) :
    ops = DrawOp.glViewport s.width s.height ::
      (c ++ [DrawOp.glFlush, DrawOp.swapBuffers]) := by
  unfold Renderer.draw at h
  cases h1 : r.sizedStep s with
  | error e =>
      rw [h1, exbind_err] at h
      exact Except.noConfusion h
  | ok p =>
      rw [h1, exbind_ok] at h
      obtain ⟨r1, ev1⟩ := p
      simp only at h
      cases h2 : r1.sizedStep s with
      | error e =>
          rw [h2, exbind_err] at h
          exact Except.noConfusion h
      | ok q =>
          rw [h2, exbind_ok] at h
          obtain ⟨r2, ev2⟩ := q
          simp only [Except.ok.injEq, Prod.mk.injEq] at h
          exact h.2.symm

/-- A successful `Window::draw` on the GPU path: the updated fields and
the exact effect list. -/
theorem window_draw_gpu {w w' : Window} {ops : List DrawOp}
    (h : w.spb_buffer = none) (hok : w.draw = Except.ok (w', ops)) :
    w'.spb_buffer = none ∧ w'.size = w.size ∧ w'.scale = w.scale ∧
    w'.options = w.options ∧ w'.renderer = w'.renderer ∧
    w'.image = (glRender (w.size.mulF64 w.scale) w.image w.options).1 ∧
    ops = [DrawOp.setDestination w.size.width w.size.height,
           DrawOp.damage w.size.width w.size.height,
           DrawOp.glViewport (w.size.mulF64 w.scale).width (w.size.mulF64 w.scale).height] ++
          (glRender (w.size.mulF64 w.scale) w.image w.options).2 ++
          [DrawOp.glFlush, DrawOp.swapBuffers, DrawOp.commit] := by
  rw [window_draw_gpu_eq w h] at hok
  cases hr : w.renderer.draw (w.size.mulF64 w.scale)
      (glRender (w.size.mulF64 w.scale) w.image w.options).2 with
  | error e =>
      rw [hr, exmap_err] at hok
      exact Except.noConfusion hok
  | ok res =>
      rw [hr, exmap_ok] at hok
      obtain ⟨rr, rops⟩ := res
      have hshape := renderer_draw_ok_shape hr
      simp only [Except.ok.injEq, Prod.mk.injEq] at hok
      obtain ⟨hw', hops⟩ := hok
      rw [← hw']
      refine ⟨h, rfl, rfl, rfl, rfl, rfl, ?_⟩
      rw [← hops, hshape]
      simp

/-- A successful `Window::draw` never changes the buffer choice, size,
scale or options. -/
theorem window_draw_preserves {w w' : Window} {ops : List DrawOp}
    (h : w.draw = Except.ok (w', ops)) :
    w'.spb_buffer = w.spb_buffer ∧ w'.size = w.size ∧ w'.scale = w.scale ∧
    w'.options = w.options := by
  cases hb : w.spb_buffer with
  | some t =>
      obtain ⟨r, g, b, a⟩ := t
      rw [window_draw_flat w r g b a hb] at h
      simp only [Except.ok.injEq, Prod.mk.injEq] at h
      rw [← h.1]
      exact ⟨hb, rfl, rfl, rfl⟩
  | none =>
      have hg := window_draw_gpu hb h
      exact ⟨hg.1, hg.2.1, hg.2.2.1, hg.2.2.2.1⟩

/-- `Window::set_size` on an unchanged size returns immediately. -/
theorem setSize_same {w : Window} {s : Size Nat} (h : w.size = s) :
    w.setSize s = Except.ok (w, 0) := by
  unfold Window.setSize
  rw [if_pos h]

/-- `Window::set_size` on a new size stores it and redraws once. -/
theorem setSize_new {w : Window} {s : Size Nat} (h : w.size ≠ s) :
    w.setSize s = (Window.draw { w with size := s }).map fun res => (res.1, 1) := by
  unfold Window.setSize
  rw [if_neg h]

/-- `Window::set_scale_factor` on an unchanged factor returns
immediately. -/
theorem setScale_same {w : Window} {f : ℚ} (h : w.scale = f) :
    w.setScaleFactor f = Except.ok (w, 0) := by
  unfold Window.setScaleFactor
  rw [if_pos h]

/-- `Window::set_scale_factor` on a new factor with no size known only
stores the factor. -/
theorem setScale_new_nosize {w : Window} {f : ℚ} (h : w.scale ≠ f)
    (hz : w.size = Size.zero) :
    w.setScaleFactor f = Except.ok ({ w with scale := f }, 0) := by
  unfold Window.setScaleFactor
  rw [if_neg h, if_neg (by simp [hz])]

/-- `Window::set_scale_factor` on a new factor with a known size stores
the factor and redraws once. -/
theorem setScale_new_sized {w : Window} {f : ℚ} (h : w.scale ≠ f)
    (hz : w.size ≠ Size.zero) :
    w.setScaleFactor f =
      (Window.draw { w with scale := f }).map fun res => (res.1, 1) := by
  unfold Window.setScaleFactor
  rw [if_neg h, if_pos (by simp [hz])]

/-- C4: `set_size` with the stored size and `set_scale_factor` with the
stored factor leave the window unchanged and trigger no redraw; two
`Configure` events with the same new size, or two scale-factor changes to
the same new factor, produce exactly one redraw; a new scale factor
redraws only when a size is already known. -/
theorem resize_rescale_idempotent :
    (∀ (w : Window) (s : Size Nat), w.size = s → w.setSize s = Except.ok (w, 0)) ∧
    (∀ (w : Window) (f : ℚ), w.scale = f → w.setScaleFactor f = Except.ok (w, 0)) ∧
    (∀ (w w' : Window) (s : Size Nat) (n : Nat),
       w.size ≠ s → w.setSize s = Except.ok (w', n) →
       n = 1 ∧ w'.size = s ∧ w'.setSize s = Except.ok (w', 0)) ∧
    (∀ (w w' : Window) (f : ℚ) (n : Nat),
       w.scale ≠ f → w.setScaleFactor f = Except.ok (w', n) →
       w'.scale = f ∧ w'.setScaleFactor f = Except.ok (w', 0) ∧
       (w.size = Size.zero → n = 0 ∧ w' = { w with scale := f }) ∧
       (w.size ≠ Size.zero → n = 1)) := by
  refine ⟨fun w s h => setSize_same h, fun w f h => setScale_same h, ?_, ?_⟩
  · intro w w' s n hne hok
    rw [setSize_new hne] at hok
    cases hd : Window.draw { w with size := s } with
    | error e =>
        rw [hd, exmap_err] at hok
        exact Except.noConfusion hok
    | ok res =>
        rw [hd, exmap_ok] at hok
        obtain ⟨w2, ops⟩ := res
        simp only [Except.ok.injEq, Prod.mk.injEq] at hok
        obtain ⟨hw2, hn⟩ := hok
        subst hw2
        have hpres := window_draw_preserves hd
        have hsz : w2.size = s := hpres.2.1
        exact ⟨hn.symm, hsz, setSize_same hsz⟩
  · intro w w' f n hne hok
    by_cases hz : w.size = Size.zero
    · rw [setScale_new_nosize hne hz] at hok
      simp only [Except.ok.injEq, Prod.mk.injEq] at hok
      obtain ⟨hw', hn⟩ := hok
      subst hw'
      refine ⟨rfl, setScale_same rfl, fun _ => ⟨hn.symm, rfl⟩, fun hcon => absurd hz hcon⟩
    · rw [setScale_new_sized hne hz] at hok
      cases hd : Window.draw { w with scale := f } with
      | error e =>
          rw [hd, exmap_err] at hok
          exact Except.noConfusion hok
      | ok res =>
          rw [hd, exmap_ok] at hok
          obtain ⟨w2, ops⟩ := res
          simp only [Except.ok.injEq, Prod.mk.injEq] at hok
          obtain ⟨hw2, hn⟩ := hok
          subst hw2
          have hpres := window_draw_preserves hd
          have hsc : w2.scale = f := hpres.2.2.1
          exact ⟨hsc, setScale_same hsc, fun hcon => absurd hcon hz, fun _ => hn.symm⟩

/-- Witness for `resize_rescale_idempotent`: a no-op configure on a fresh
window. -/
theorem resize_rescale_idempotent_witness :
    (Window.mkNew true (Options.mk (Rgb.mk 10 20 30) none (Position.mk (1/2) (1/2)))).setSize
      Size.zero =
    Except.ok (Window.mkNew true (Options.mk (Rgb.mk 10 20 30) none (Position.mk (1/2) (1/2))),
      0) :=
  resize_rescale_idempotent.1
    (Window.mkNew true (Options.mk (Rgb.mk 10 20 30) none (Position.mk (1/2) (1/2))))
    Size.zero rfl

/-- C3: the flat-color buffer exists iff the capability was available and
no image was configured; no later operation changes that choice; with the
buffer present, `draw` attaches it and performs no GPU operation at all;
without it, `draw` goes through the GPU renderer, clears to the
background color, draws the fitted image texture when an image is
configured and no texture otherwise. -/
theorem draw_path_selection :
    (∀ (avail : Bool) (opts : Options),
       (Window.mkNew avail opts).spb_buffer =
         (if avail && opts.image.isNone then
            some (spbChannel opts.color.r, spbChannel opts.color.g,
                  spbChannel opts.color.b, u32Max)
          else none)) ∧
    (∀ (w w' : Window) (ops : List DrawOp),
       w.draw = Except.ok (w', ops) → w'.spb_buffer = w.spb_buffer) ∧
    (∀ (w w' : Window) (s : Size Nat) (n : Nat),
       w.setSize s = Except.ok (w', n) → w'.spb_buffer = w.spb_buffer) ∧
    (∀ (w w' : Window) (f : ℚ) (n : Nat),
       w.setScaleFactor f = Except.ok (w', n) → w'.spb_buffer = w.spb_buffer) ∧
    (∀ (w : Window) (r g b a : Nat), w.spb_buffer = some (r, g, b, a) →
       w.draw = Except.ok (w,
         [DrawOp.setDestination w.size.width w.size.height,
          DrawOp.damage w.size.width w.size.height,
          DrawOp.attachBuffer r g b a, DrawOp.commit]) ∧
       ∀ op ∈ ([DrawOp.setDestination w.size.width w.size.height,
                DrawOp.damage w.size.width w.size.height,
                DrawOp.attachBuffer r g b a, DrawOp.commit] : List DrawOp),
         op.isGpu = false) ∧
    (∀ (w w' : Window) (ops : List DrawOp), w.spb_buffer = none →
       w.draw = Except.ok (w', ops) →
       DrawOp.glClearColor ((w.options.color.r : ℚ) / 255) ((w.options.color.g : ℚ) / 255)
           ((w.options.color.b : ℚ) / 255) 1 ∈ ops ∧
       DrawOp.glClear ∈ ops ∧
       (∀ img : Image, w.image = some img →
          DrawOp.glDrawTexture img.texture.2.1.id
            (imageFit { width := ((w.size.mulF64 w.scale).width : ℚ),
                        height := ((w.size.mulF64 w.scale).height : ℚ) }
              { width := (img.sizeOf.width : ℚ), height := (img.sizeOf.height : ℚ) }
              w.options.focus).1
            (imageFit { width := ((w.size.mulF64 w.scale).width : ℚ),
                        height := ((w.size.mulF64 w.scale).height : ℚ) }
              { width := (img.sizeOf.width : ℚ), height := (img.sizeOf.height : ℚ) }
              w.options.focus).2 ∈ ops) ∧
       (w.image = none → ∀ (t : Nat) (p : Position ℚ) (sq : Size ℚ),
          DrawOp.glDrawTexture t p sq ∉ ops)) := by
  refine ⟨fun avail opts => rfl, ?_, ?_, ?_, ?_, ?_⟩
  · intro w w' ops hok
    exact (window_draw_preserves hok).1
  · intro w w' s n hok
    by_cases hs : w.size = s
    · rw [setSize_same hs] at hok
      simp only [Except.ok.injEq, Prod.mk.injEq] at hok
      rw [← hok.1]
    · rw [setSize_new hs] at hok
      cases hd : Window.draw { w with size := s } with
      | error e =>
          rw [hd, exmap_err] at hok
          exact Except.noConfusion hok
      | ok res =>
          rw [hd, exmap_ok] at hok
          obtain ⟨w2, ops2⟩ := res
          simp only [Except.ok.injEq, Prod.mk.injEq] at hok
          rw [← hok.1]
          exact (window_draw_preserves hd).1
  · intro w w' f n hok
    by_cases hf : w.scale = f
    · rw [setScale_same hf] at hok
      simp only [Except.ok.injEq, Prod.mk.injEq] at hok
      rw [← hok.1]
    · by_cases hz : w.size = Size.zero
      · rw [setScale_new_nosize hf hz] at hok
        simp only [Except.ok.injEq, Prod.mk.injEq] at hok
        rw [← hok.1]
      · rw [setScale_new_sized hf hz] at hok
        cases hd : Window.draw { w with scale := f } with
        | error e =>
            rw [hd, exmap_err] at hok
            exact Except.noConfusion hok
        | ok res =>
            rw [hd, exmap_ok] at hok
            obtain ⟨w2, ops2⟩ := res
            simp only [Except.ok.injEq, Prod.mk.injEq] at hok
            rw [← hok.1]
            exact (window_draw_preserves hd).1
  · intro w r g b a hb
    refine ⟨window_draw_flat w r g b a hb, ?_⟩
    intro op hop
    simp only [List.mem_cons, List.not_mem_nil, or_false] at hop
    rcases hop with rfl | rfl | rfl | rfl <;> rfl
  · intro w w' ops hb hok
    have hg := window_draw_gpu hb hok
    obtain ⟨-, -, -, -, -, -, hops⟩ := hg
    subst hops
    cases hi : w.image with
    | none =>
        rw [glRender_none]
        refine ⟨by simp, by simp, ?_, ?_⟩
        · intro img himg
          exact Option.noConfusion himg
        · intro _ t p sq
          simp
    | some img =>
        rw [glRender_some]
        refine ⟨by simp, by simp, ?_, ?_⟩
        · intro img2 himg2
          simp only [Option.some.injEq] at himg2
          subst himg2
          simp
        · intro hcon
          exact Option.noConfusion hcon

/-- Witness for `draw_path_selection`: a flat-color window attaches its
buffer. -/
theorem draw_path_selection_witness :
    (Window.mkNew true (Options.mk (Rgb.mk 10 20 30) none (Position.mk (1/2) (1/2)))).draw =
      Except.ok
        (Window.mkNew true (Options.mk (Rgb.mk 10 20 30) none (Position.mk (1/2) (1/2))),
         [DrawOp.setDestination 0 0, DrawOp.damage 0 0,
          DrawOp.attachBuffer (spbChannel 10) (spbChannel 20) (spbChannel 30) u32Max,
          DrawOp.commit]) :=
  (draw_path_selection.2.2.2.2.1
    (Window.mkNew true (Options.mk (Rgb.mk 10 20 30) none (Position.mk (1/2) (1/2))))
    (spbChannel 10) (spbChannel 20) (spbChannel 30) u32Max rfl).1

/-- C7: an image starts `Unloaded` at construction (no upload happens
there), `Image::texture` uploads exactly once on first use and flips the
state irreversibly to `Loaded`, later calls return the same texture with
no upload, and draws that never request the texture (the flat-color path)
perform no upload and leave the image state untouched. -/
theorem image_lazy_loading :
    (∀ (avail : Bool) (opts : Options) (u : UnloadedImage),
       opts.image = some u →
       (Window.mkNew avail opts).image = some (Image.unloaded u)) ∧
    (∀ u : UnloadedImage,
       (Image.unloaded u).texture =
         (Image.loaded { width := u.width, height := u.height, id := 0 },
          { width := u.width, height := u.height, id := 0 },
          [DrawOp.glUploadTexture u.bytes u.width u.height u.gl_format])) ∧
    (∀ t : Texture, (Image.loaded t).texture = (Image.loaded t, t, [])) ∧
    (∀ img : Image, ∃ t : Texture, img.texture.1 = Image.loaded t) ∧
    (∀ (w w' : Window) (t : Texture) (ops : List DrawOp),
       w.image = some (Image.loaded t) → w.draw = Except.ok (w', ops) →
       w'.image = some (Image.loaded t) ∧
       ∀ (bts : List Nat) (wd ht fm : Nat), DrawOp.glUploadTexture bts wd ht fm ∉ ops) ∧
    (∀ (w w' : Window) (r g b a : Nat) (ops : List DrawOp),
       w.spb_buffer = some (r, g, b, a) → w.draw = Except.ok (w', ops) →
       w'.image = w.image ∧
       ∀ (bts : List Nat) (wd ht fm : Nat), DrawOp.glUploadTexture bts wd ht fm ∉ ops) := by
  refine ⟨?_, fun u => rfl, fun t => rfl, ?_, ?_, ?_⟩
  · intro avail opts u h
    simp [Window.mkNew, h]
  · intro img
    cases img with
    | unloaded u => exact ⟨{ width := u.width, height := u.height, id := 0 }, rfl⟩
    | loaded t => exact ⟨t, rfl⟩
  · intro w w' t ops hi hok
    cases hb : w.spb_buffer with
    | some tup =>
        obtain ⟨r, g, b, a⟩ := tup
        rw [window_draw_flat w r g b a hb] at hok
        simp only [Except.ok.injEq, Prod.mk.injEq] at hok
        obtain ⟨hw', hops⟩ := hok
        subst hw'
        subst hops
        refine ⟨hi, ?_⟩
        intro bts wd ht fm
        simp
    | none =>
        have hg := window_draw_gpu hb hok
        obtain ⟨-, -, -, -, -, himg, hops⟩ := hg
        subst hops
        rw [hi, glRender_some] at himg
        refine ⟨?_, ?_⟩
        · rw [himg]
          rfl
        · intro bts wd ht fm
          rw [hi, glRender_some]
          simp [Image.texture]
  · intro w w' r g b a ops hb hok
    rw [window_draw_flat w r g b a hb] at hok
    simp only [Except.ok.injEq, Prod.mk.injEq] at hok
    obtain ⟨hw', hops⟩ := hok
    subst hw'
    subst hops
    refine ⟨rfl, ?_⟩
    intro bts wd ht fm
    simp

/-- Witness for `image_lazy_loading`: a window constructed with an image
holds it unloaded. -/
theorem image_lazy_loading_witness :
    (Window.mkNew false
        (Options.mk (Rgb.mk 0 0 0) (some (UnloadedImage.mk [1, 2, 3] 1 1 6407))
          (Position.mk (1/2) (1/2)))).image =
      some (Image.unloaded (UnloadedImage.mk [1, 2, 3] 1 1 6407)) :=
  image_lazy_loading.1 false
    (Options.mk (Rgb.mk 0 0 0) (some (UnloadedImage.mk [1, 2, 3] 1 1 6407))
      (Position.mk (1/2) (1/2)))
    (UnloadedImage.mk [1, 2, 3] 1 1 6407) rfl

/-- C5: with the fractional-scale capability bound at startup, an integer
scale-factor event from the compositor handler is a complete no-op (state
unchanged, no redraw), while the fractional-scale handler always forwards
the factor to the window. -/
theorem fractional_mode_integer_noop (st : State) (factor : Int)
    (h : st.fractionalScale = true) :
    st.compositorScaleFactorChanged factor = Except.ok (st, 0) ∧
    ∀ f : ℚ, st.fractionalScaleFactorChanged f =
      (st.window.setScaleFactor f).map fun res =>
        ({ st with window := res.1 }, res.2) := by
  constructor
  · unfold State.compositorScaleFactorChanged
    rw [h, if_neg (by simp)]
  · intro f
    rfl

/-- Witness for `fractional_mode_integer_noop` on a concrete state. -/
theorem fractional_mode_integer_noop_witness :
    State.compositorScaleFactorChanged
      (State.mk true
        (Window.mkNew true (Options.mk (Rgb.mk 0 0 0) none (Position.mk (1/2) (1/2)))) false)
      2 =
    Except.ok
      (State.mk true
        (Window.mkNew true (Options.mk (Rgb.mk 0 0 0) none (Position.mk (1/2) (1/2)))) false,
       0) :=
  (fractional_mode_integer_noop
    (State.mk true
      (Window.mkNew true (Options.mk (Rgb.mk 0 0 0) none (Position.mk (1/2) (1/2)))) false)
    2 rfl).1

end Tabula
